import Mathlib

/-
Verification of the hologram-reconstruction module (src/shampoo/reconstruction.py)
against its natural-language specification.

The definitions below are shallow embeddings of the functions of the source
file, translated line by line from the Python source.  Machine floats are
idealised as exact rationals (ℚ) or reals (ℝ); the one float behaviour that
matters for the claims, namely that numpy's real-valued np.sqrt returns NaN on
a negative argument, is modelled explicitly.  External library collaborators
(skimage's unwrap_phase, numpy's arctan, the FFT) are abstracted as explicit
function parameters of the embedding, since only the composition structure
around them is owned by the source file.
-/

/-! ### Name-resolution model of `Hologram.calculate_digital_phase_mask`
(source lines 271-516).

Python resolves names at run time; a reference to a name that no statement
has bound raises `NameError`.  `calculate_digital_phase_mask` is embedded as
the sequence of its executed statements, each recorded with the names it
binds and the names it reads.  Commented-out lines of the source are not
statements and bind nothing. -/

/-- The local and global names that occur in the executed body of
`calculate_digital_phase_mask`.  Globals (imports and builtins) and the
function parameters are bound before the body runs. -/
inductive PyName where
  | np | plt | unwrap_phase | gaussian_filter | gaussian_filter1d
  | shift_peak | ifft2 | zip | range | len
  | self | psi | plots | aberr_corr_order | n_aberr_corr_iter
  | order | y | x | inverse_psi | phase_image | unwrapped_phase_image
  | grad_x_2 | grad_y_2 | n_rows_or_cols
  | least_noisy_x_indices | least_noisy_y_indices
  | fig | ax | phase_x_bg | phase_y_bg | phase_x_bg_smooth | phase_y_bg_smooth
  | phase_x_polynomials | phase_y_polynomials
  | phase_x_background | phase_y_background
  | background_x_polynomials | background_y_polynomials
  | digital_phase_mask
deriving DecidableEq

/-- A Python statement, reduced to the names it reads and the names it binds.
An assignment evaluates its right-hand side (reading `refs`) and then binds
`targets`; a bare expression statement only reads. -/
inductive PyStmt where
  | assign (targets : List PyName) (refs : List PyName)
  | expr (refs : List PyName)

/-- First name of `refs` that is not bound in `env`, if any. -/
def firstUnbound (env : List PyName) (refs : List PyName) : Option PyName :=
  refs.find? (fun r => ! env.contains r)

/-- Execute one statement: raise `NameError` (the unbound name) or extend the
environment. -/
def execStmt (env : List PyName) : PyStmt → Except PyName (List PyName)
  | PyStmt.assign ts rs =>
      match firstUnbound env rs with
      | some r => Except.error r
      | none => Except.ok (ts ++ env)
  | PyStmt.expr rs =>
      match firstUnbound env rs with
      | some r => Except.error r
      | none => Except.ok env

/-- Execute a statement list, stopping at the first `NameError`. -/
def execStmts (env : List PyName) : List PyStmt → Except PyName (List PyName)
  | [] => Except.ok env
  | st :: rest =>
      match execStmt env st with
      | Except.error r => Except.error r
      | Except.ok env2 => execStmts env2 rest

/-- Environment on entry to `calculate_digital_phase_mask`: module globals
used by the body plus the function's parameters (source lines 13-37, 271). -/
def digital_phase_mask_initial_env : List PyName :=
  [PyName.np, PyName.plt, PyName.unwrap_phase, PyName.gaussian_filter,
   PyName.gaussian_filter1d, PyName.shift_peak, PyName.ifft2,
   PyName.zip, PyName.range, PyName.len,
   PyName.self, PyName.psi, PyName.plots, PyName.aberr_corr_order,
   PyName.n_aberr_corr_iter]

/-- The executed statements of `calculate_digital_phase_mask`, transcribed
from source lines 304-394 (commented-out lines omitted, as Python does not
execute them).  Note that lines 349-352 bind `phase_x_bg` / `phase_y_bg` /
`phase_x_bg_smooth` / `phase_y_bg_smooth`, while the polyfit statements of
lines 368-371 read `phase_x_background` / `phase_y_background`, and line 392
reads `background_x_polynomials` / `background_y_polynomials`; none of those
four names is ever a target of an executed assignment. -/
def digital_phase_mask_body : List PyStmt :=
  [PyStmt.assign [PyName.order] [PyName.aberr_corr_order],
   PyStmt.assign [PyName.y, PyName.x] [PyName.self],
   PyStmt.assign [PyName.inverse_psi]
     [PyName.shift_peak, PyName.ifft2, PyName.psi, PyName.self],
   PyStmt.assign [PyName.phase_image] [PyName.np, PyName.inverse_psi],
   PyStmt.assign [PyName.unwrapped_phase_image]
     [PyName.unwrap_phase, PyName.phase_image, PyName.self],
   PyStmt.assign [PyName.unwrapped_phase_image]
     [PyName.gaussian_filter, PyName.unwrapped_phase_image],
   PyStmt.assign [PyName.grad_x_2] [PyName.np, PyName.unwrapped_phase_image],
   PyStmt.assign [PyName.grad_y_2] [PyName.np, PyName.unwrapped_phase_image],
   PyStmt.assign [PyName.n_rows_or_cols] [],
   PyStmt.assign [PyName.least_noisy_x_indices]
     [PyName.grad_x_2, PyName.n_rows_or_cols],
   PyStmt.assign [PyName.least_noisy_y_indices]
     [PyName.grad_y_2, PyName.n_rows_or_cols],
   PyStmt.assign [PyName.fig, PyName.ax] [PyName.plt],
   PyStmt.expr [PyName.ax, PyName.grad_x_2],
   PyStmt.expr [PyName.ax, PyName.unwrapped_phase_image, PyName.plt],
   PyStmt.expr [PyName.ax, PyName.grad_y_2, PyName.range, PyName.len],
   PyStmt.expr [PyName.ax, PyName.len, PyName.grad_y_2],
   PyStmt.expr [PyName.ax, PyName.len, PyName.grad_x_2],
   PyStmt.assign [PyName.x, PyName.y]
     [PyName.zip, PyName.least_noisy_x_indices, PyName.least_noisy_y_indices],
   PyStmt.expr [PyName.ax, PyName.x],
   PyStmt.expr [PyName.ax, PyName.y],
   PyStmt.expr [PyName.ax, PyName.x],
   PyStmt.expr [PyName.ax, PyName.y],
   PyStmt.expr [PyName.plt],
   PyStmt.assign [PyName.phase_x_bg]
     [PyName.np, PyName.unwrapped_phase_image, PyName.least_noisy_x_indices],
   PyStmt.assign [PyName.phase_y_bg]
     [PyName.np, PyName.unwrapped_phase_image, PyName.least_noisy_y_indices],
   PyStmt.assign [PyName.phase_x_bg_smooth]
     [PyName.gaussian_filter1d, PyName.phase_x_bg],
   PyStmt.assign [PyName.phase_y_bg_smooth]
     [PyName.gaussian_filter1d, PyName.phase_x_bg],
   PyStmt.expr [PyName.plt],
   PyStmt.expr [PyName.plt, PyName.unwrapped_phase_image,
     PyName.least_noisy_x_indices],
   PyStmt.expr [PyName.plt, PyName.gaussian_filter1d, PyName.np,
     PyName.unwrapped_phase_image, PyName.least_noisy_x_indices],
   PyStmt.expr [PyName.plt],
   PyStmt.assign [PyName.phase_x_polynomials]
     [PyName.np, PyName.least_noisy_x_indices, PyName.phase_x_background,
      PyName.order],
   PyStmt.assign [PyName.phase_y_polynomials]
     [PyName.np, PyName.least_noisy_y_indices, PyName.phase_y_background,
      PyName.order],
   PyStmt.expr [PyName.plt],
   PyStmt.expr [PyName.plt, PyName.phase_x_background],
   PyStmt.expr [PyName.plt],
   PyStmt.assign [PyName.digital_phase_mask]
     [PyName.np, PyName.self, PyName.background_x_polynomials,
      PyName.background_y_polynomials, PyName.x, PyName.y]]

/-- Outcome of running the body of `calculate_digital_phase_mask`. -/
def calculate_digital_phase_mask_run : Except PyName (List PyName) :=
  execStmts digital_phase_mask_initial_env digital_phase_mask_body

/-! ### Cache mechanics of `Hologram.reconstruct` (source lines 157-193).

`reconstruct` returns `ReconstructedWavefield(reconstructed_wavefield)` where,
on a cache hit, `reconstructed_wavefield` is the `ReconstructedWavefield`
object previously stored in `self.reconstructions` (line 180), and on a miss
it is the ndarray produced by `reconstruct_wavefield` (line 185).  The value
domain therefore distinguishes ndarrays from `ReconstructedWavefield`
wrappers.  The array contents are abstracted by a type parameter; the cache
key is abstracted to the propagation distance, the only key component that
varies between calls on a fixed hologram. -/

/-- A run-time value of the reconstruction pipeline: an ndarray, or a
`ReconstructedWavefield` object wrapping the value stored in its
`reconstructed_wavefield` attribute. -/
inductive PyVal (α : Type) where
  | arr (a : α)
  | rw (v : PyVal α)
deriving DecidableEq

/-- Association-list lookup for the `self.reconstructions` dict, keyed by
propagation distance. -/
def cacheLookup {α : Type} (d : ℚ) : List (ℚ × PyVal α) → Option (PyVal α)
  | [] => none
  | (k, v) :: rest => if d = k then some v else cacheLookup d rest

/-- `Hologram.reconstruct` with `cache=True` (source lines 172-193).
`compute` abstracts `reconstruct_wavefield`, which returns an ndarray.
Returns the `ReconstructedWavefield` produced by line 193 together with the
updated cache. -/
def reconstruct_cached {α : Type} (compute : ℚ → α) (d : ℚ)
    (cache : List (ℚ × PyVal α)) : PyVal α × List (ℚ × PyVal α) :=
  match cacheLookup d cache with
  | some v => (PyVal.rw v, cache)
  | none =>
      let w := compute d
      (PyVal.rw (PyVal.arr w), (d, PyVal.rw (PyVal.arr w)) :: cache)

/-- The `reconstructed_wavefield` attribute of a returned
`ReconstructedWavefield` object. -/
def rw_attribute {α : Type} : PyVal α → Option (PyVal α)
  | PyVal.rw v => some v
  | PyVal.arr _ => none

/-! ### Reference-wave retention in `reconstruct` / `reconstruct_wavefield`
(source lines 157-193 and 248-260).

Line 170 of `reconstruct` is `self.reference_wave = reference_wave`, executed
unconditionally before `reconstruct_wavefield` runs.  Inside
`reconstruct_wavefield`, lines 248-260 compute a reference wave with the
aberration corrector only when `self.reference_wave is None`, and store it on
`self`.  The corrector's output is abstracted as a fixed value `corrWave`,
and a ghost counter records how many times the aberration-correction branch
has executed. -/

/-- The reference-wave-relevant state of a `Hologram` instance, with a ghost
counter of aberration-correction runs. -/
structure RefState (α : Type) where
  reference_wave : Option α
  correctorRuns : ℕ
deriving DecidableEq

/-- The reference-wave logic of `reconstruct_wavefield` (source lines
248-260): if no reference wave is stored, run the aberration corrector and
store its result. -/
def reconstruct_wavefield_refLogic {α : Type} (corrWave : α)
    (s : RefState α) : RefState α :=
  match s.reference_wave with
  | none => ⟨some corrWave, s.correctorRuns + 1⟩
  | some _ => s

/-- One `reconstruct` call (with `cache=False`, the default): line 170
overwrites the stored reference wave with the argument, then
`reconstruct_wavefield` runs. -/
def reconstructCall {α : Type} (corrWave : α) (refArg : Option α)
    (s : RefState α) : RefState α :=
  reconstruct_wavefield_refLogic corrWave ⟨refArg, s.correctorRuns⟩

/-! ### Propagation kernel `Hologram.fourier_trans_of_impulse_resp_func`
(source lines 537-572).

The kernel argument `1 - a - b` is an exact rational in the embedding.  The
source computes `np.sqrt(1.0 - a - b)` where `1.0 - a - b` is a *real-valued*
float array, so numpy's real square root returns NaN wherever the argument is
negative, and the NaN propagates through `np.exp`. -/

/-- The term `a` of the kernel (source lines 564-566), at column index `j`:
`a = wavelength^2 * (x + n^2 dx^2 / (2 z wavelength))^2 / (n^2 dx^2)` with
`x = j - n/2`.  The same formula with `dy` and the row index gives `b`. -/
def kernel_a (n : ℕ) (wavelength dx z : ℚ) (j : ℕ) : ℚ :=
  wavelength ^ 2 *
    (((j : ℚ) - (n : ℚ) / 2) +
      (n : ℚ) ^ 2 * dx ^ 2 / (2 * z * wavelength)) ^ 2 /
    ((n : ℚ) ^ 2 * dx ^ 2)

/-- The argument of the square root at pixel `(i, j)` (source lines 570-571):
`1 - a - b`. -/
def kernel_sqrt_arg (n : ℕ) (wavelength dx dy z : ℚ) (i j : ℕ) : ℚ :=
  1 - kernel_a n wavelength dx z j - kernel_a n wavelength dy z i

/-- Numpy's real-valued `np.sqrt` yields NaN exactly on negative input. -/
def npSqrt_isNaN (q : ℚ) : Bool := decide (q < 0)

/-- Whether the kernel value `G(i, j) = exp(-i k z sqrt(1 - a - b))` is NaN:
`np.exp` of a NaN argument is NaN, so `G` is NaN exactly where the real
square root received a negative argument. -/
def G_isNaN (n : ℕ) (wavelength dx dy z : ℚ) (i j : ℕ) : Bool :=
  npSqrt_isNaN (kernel_sqrt_arg n wavelength dx dy z i j)

/-! ### `ReconstructedWavefield.phase` (source lines 645-664).

The property computes
`unwrap_phase(2*np.arctan(imag(w)/real(w)), seed=RANDOM_SEED)` on first
access, memoises it in `self._phase_image`, and returns the memo thereafter.
`unwrap_phase` (skimage) and `arctan` (numpy) are external collaborators and
are abstracted as function parameters; grids are total functions from pixel
indices to rationals. -/

/-- The array `2 * arctan(imag(w)/real(w))` passed to the unwrapper
(source lines 660-661). -/
def wrapped_double_phase (atanF : ℚ → ℚ) (w : ℕ → ℕ → ℚ × ℚ) :
    ℕ → ℕ → ℚ :=
  fun i j => 2 * atanF ((w i j).2 / (w i j).1)

/-- The memoisation state of a `ReconstructedWavefield`: the wrapped complex
array (as pairs of real and imaginary part) and the `_phase_image` memo. -/
structure PhaseState where
  wavefield : ℕ → ℕ → ℚ × ℚ
  phase_memo : Option (ℕ → ℕ → ℚ)

/-- One access to the `.phase` property (source lines 657-664): return the
memo if present, otherwise compute, memoise and return. -/
def phase_access (unwrapF : (ℕ → ℕ → ℚ) → ℕ → ℕ → ℚ) (atanF : ℚ → ℚ)
    (s : PhaseState) : (ℕ → ℕ → ℚ) × PhaseState :=
  match s.phase_memo with
  | some p => (p, s)
  | none =>
      let p := unwrapF (wrapped_double_phase atanF s.wavefield)
      (p, ⟨s.wavefield, some p⟩)

/-- The phase the specification describes: the unwrapped phase of
`2*arctan(imag/real)`, divided by 2.  (Modelled from the spec's words, for
comparison with `phase_access`; the division by 2 is the point at issue.) -/
def phase_spec (unwrapF : (ℕ → ℕ → ℚ) → ℕ → ℕ → ℚ) (atanF : ℚ → ℚ)
    (w : ℕ → ℕ → ℚ × ℚ) : ℕ → ℕ → ℚ :=
  fun i j => unwrapF (wrapped_double_phase atanF w) i j / 2

/-- A concrete constant wavefield with value `1 + 2i` everywhere, used to
exhibit the discrepancy.  On a constant input the doubled wrapped phase has
no 2π jumps, so a phase unwrapper acts as the identity on it. -/
def wavefield_const : ℕ → ℕ → ℚ × ℚ := fun _ _ => (1, 2)

/-! ### `Hologram.generate_real_image_mask` (source lines 574-599).

`np.zeros((n, n))` followed by `mask[(x-center_x)**2 + (y-center_y)**2 <
radius**2] = 1.0`, where `y, x = self.mgrid`, so at row `i`, column `j` the
grid values are `y = i` and `x = j`. -/

/-- The Fourier-space disk mask, as the n×n array of its entries (row `i`,
column `j`). -/
def generate_real_image_mask (n : ℕ) (center_x center_y radius : ℚ) :
    List (List ℚ) :=
  (List.range n).map (fun (i : ℕ) =>
    (List.range n).map (fun (j : ℕ) =>
      if ((j : ℚ) - center_x) ^ 2 + ((i : ℚ) - center_y) ^ 2 < radius ^ 2
      then 1 else 0))

/-- Entry of a list-of-lists grid at row `i`, column `j` (0 outside). -/
def cell (g : List (List ℚ)) (i j : ℕ) : ℚ :=
  ((g[i]?).getD [])[j]?.getD 0

/-! ### `Hologram.apodize` (source lines 518-535) over ℝ.

`arr *= sqrt(cos((x - n/2)*pi/n)) * sqrt(cos((y - n/2)*pi/n))` with
`y, x = self.mgrid`, so the factor at row `i`, column `j` is
`window n j * window n i`.  The `*=` is an in-place numpy operation: it
mutates the array object that was passed in, and the method returns that same
object. -/

/-- The one-dimensional apodisation window at index `idx`:
`sqrt(cos((idx - n/2) * pi / n))`. -/
noncomputable def apod_window (n : ℕ) (idx : ℕ) : ℝ :=
  Real.sqrt (Real.cos (((idx : ℝ) - (n : ℝ) / 2) * Real.pi / (n : ℝ)))

/-- The array value produced by `apodize` at row `i`, column `j`. -/
noncomputable def apodize (n : ℕ) (arr : ℕ → ℕ → ℝ) : ℕ → ℕ → ℝ :=
  fun i j => arr i j * (apod_window n j * apod_window n i)

/-- The state of a `Hologram` instance that matters for the stored pixel
array: its side length and the `self.hologram` array. -/
structure HoloState where
  n : ℕ
  hologram : ℕ → ℕ → ℝ

/-- Effect of `apodized_hologram = self.apodize(self.hologram)` (source line
226) on the instance: because `apodize` multiplies its argument in place
(line 533), the stored `self.hologram` array itself is scaled by the window;
the returned array is that same object. -/
noncomputable def apodize_inplace (s : HoloState) :
    HoloState × (ℕ → ℕ → ℝ) :=
  (⟨s.n, apodize s.n s.hologram⟩, apodize s.n s.hologram)

/-- The stored hologram after one `reconstruct_wavefield` call: line 226 is
the only statement that touches `self.hologram`. -/
noncomputable def reconstruct_wavefield_hologram_after (s : HoloState) :
    HoloState :=
  (apodize_inplace s).1

/-- A concrete 4×4 hologram of ones. -/
noncomputable def holo_ones : HoloState := ⟨4, fun _ _ => 1⟩

/-! ### `Hologram.find_fourier_peak_centroid` (source lines 601-637) and its
position in the pipeline of `reconstruct_wavefield` (lines 226-231).

`margin = int(self.n * margin_factor)`; the search array is
`np.abs(fourier_arr)[margin:-margin, margin:-margin]`, smoothed with a
Gaussian, and the centroid is the argmax location plus the margin.  When the
slice is empty, numpy's `argmax` raises `ValueError`; nothing validates the
margin beforehand, and the caller has already apodised and Fourier-transformed
the hologram.  The trace of array-work events is recorded alongside the
result; the argmax location on a non-empty region is abstracted as a
parameter. -/

/-- Work performed by the pipeline, in order. -/
inductive PeakEvent where
  | apodize_step | fft2_step | abs_slice_step | gaussian_smooth_step
  | argmax_step
deriving DecidableEq

/-- Errors the pipeline can surface. -/
inductive PeakError where
  | configurationError
  | valueErrorEmptyArgmax
deriving DecidableEq

/-- Python's `int()` applied to a rational: truncation toward zero. -/
def int_trunc (q : ℚ) : ℤ := if 0 ≤ q then ⌊q⌋ else ⌈q⌉

/-- Effective index of slice bound `v` on an axis of length `n` (Python
semantics: negative indices count from the end; bounds clamp to `[0, n]`). -/
def sliceIdx (n : ℕ) (v : ℤ) : ℤ :=
  if v < 0 then max 0 ((n : ℤ) + v) else min v (n : ℤ)

/-- Length of the Python slice `a[start:stop]` on an axis of length `n`. -/
def sliceLen (n : ℕ) (start stop : ℤ) : ℕ :=
  (max 0 (sliceIdx n stop - sliceIdx n start)).toNat

/-- `find_fourier_peak_centroid` (source lines 601-624): margin computation,
slice of the magnitude array, Gaussian smoothing, argmax.  `peakIdx`
abstracts the argmax location (row, column of the transposed smoothed array)
as a function of the region side; on an empty region numpy's `argmax` raises
`ValueError`. -/
def find_fourier_peak_centroid (n : ℕ) (margin_factor : ℚ)
    (peakIdx : ℕ → ℕ × ℕ) : List PeakEvent × Except PeakError (ℤ × ℤ) :=
  let m := int_trunc ((n : ℚ) * margin_factor)
  let side := sliceLen n m (-m)
  if side = 0 then
    ([PeakEvent.abs_slice_step, PeakEvent.gaussian_smooth_step],
     Except.error PeakError.valueErrorEmptyArgmax)
  else
    let p := peakIdx side
    ([PeakEvent.abs_slice_step, PeakEvent.gaussian_smooth_step,
      PeakEvent.argmax_step],
     Except.ok ((p.1 : ℤ) + m, (p.2 : ℤ) + m))

/-- The start of `reconstruct_wavefield` (source lines 226-231): apodise the
hologram, Fourier-transform it, then search the spectrum for the peak.  The
caller's apodisation and FFT events precede whatever the peak search does. -/
def reconstruct_peak_pipeline (n : ℕ) (margin_factor : ℚ)
    (peakIdx : ℕ → ℕ × ℕ) : List PeakEvent × Except PeakError (ℤ × ℤ) :=
  let r := find_fourier_peak_centroid n margin_factor peakIdx
  (PeakEvent.apodize_step :: PeakEvent.fft2_step :: r.1, r.2)

/-! ### `shift_peak` (source lines 51-73).

`np.roll(np.roll(arr, int(sx), axis=0), int(sy), axis=1)`.  Arrays are lists
of rows; `np.roll` by `s` on an axis of length `n` sends the element at index
`i` to index `(i + s) mod n`, which is a left rotation by `(-s) mod n`. -/

/-- `np.roll` along a list: `(npRoll s l)[i] = l[(i - s) mod n]`. -/
def npRoll {α : Type} (s : ℤ) (l : List α) : List α :=
  l.rotate (((-s) % (l.length : ℤ)).toNat)

/-- `shift_peak arr sx sy`: roll the rows by `sx` (axis 0), then roll within
each row by `sy` (axis 1). -/
def shift_peak {α : Type} (arr : List (List α)) (sx sy : ℤ) :
    List (List α) :=
  (npRoll sx arr).map (npRoll sy)

/-! ## Theorems -/

/-- Claim C1: the specification asserts that `reconstruct` with
`reference_wave=None` completes the aberration-correction step, the
digital-phase-mask synthesis inside `calculate_digital_phase_mask` producing
a value rather than failing on an unbound name.  In fact the executed body of
`calculate_digital_phase_mask` reads the name `phase_x_background` at its
first polyfit statement (source line 368) without any executed statement ever
binding it (the bindings exist only in commented-out code), so the function
raises `NameError` and no reference wave, and hence no
`ReconstructedWavefield`, is ever produced on that path.  This theorem
evaluates the embedded body: execution stops with a `NameError` on
`phase_x_background`. -/
theorem c1_digital_phase_mask_raises_name_error :
    calculate_digital_phase_mask_run = Except.error PyName.phase_x_background := by
  rfl

/-- Claim C2: the specification asserts that two `reconstruct` calls with
identical parameters and `cache=True` return `ReconstructedWavefield`s with
bit-identical content.  In fact the cache stores `ReconstructedWavefield`
objects (source line 191) while line 193 wraps whatever it has in another
`ReconstructedWavefield`, so on the cache-hit second call the returned
object's `reconstructed_wavefield` attribute is the cached
`ReconstructedWavefield` object, not the wavefield array the first call
returned.  For every abstract `reconstruct_wavefield` result and distance,
starting from an empty cache: the first call's wrapped content is the array,
the second call's is a `ReconstructedWavefield` wrapper, and the two
differ. -/
theorem c2_cache_hit_double_wraps {α : Type} (compute : ℚ → α) (d : ℚ) :
    rw_attribute (reconstruct_cached compute d (reconstruct_cached compute d []).2).1 ≠
      rw_attribute (reconstruct_cached compute d []).1 ∧
    rw_attribute (reconstruct_cached compute d []).1 = some (PyVal.arr (compute d)) ∧
    rw_attribute (reconstruct_cached compute d (reconstruct_cached compute d []).2).1 =
      some (PyVal.rw (PyVal.arr (compute d))) := by
  refine ⟨?h1, ?h2, ?h3⟩ <;>
    simp [reconstruct_cached, cacheLookup, rw_attribute]

/-- Claim C3, counterexample: the claim states that after a first
`reconstruct` call with `reference_wave=None` has computed a reference wave,
every subsequent such call reuses it, the corrector running at most once.
Starting from a fresh hologram state, two `reconstruct(None)` calls leave the
ghost corrector-run counter at 2, not 1: line 170
(`self.reference_wave = reference_wave`) resets the stored wave to `None`
before `reconstruct_wavefield` tests it, so the corrector runs again. -/
theorem c3_counterexample :
    (reconstructCall (0 : ℕ) none (reconstructCall (0 : ℕ) none ⟨none, 0⟩)).correctorRuns ≠
      (reconstructCall (0 : ℕ) none ⟨none, 0⟩).correctorRuns := by
  decide

/-- Claim C3, amended: `reconstruct` overwrites the stored reference wave
with its `reference_wave` argument on every call, so the aberration
corrector runs on every `reconstruct` call with `reference_wave=None`
(regardless of any previously computed and stored wave), and is skipped
exactly when the caller supplies a reference wave explicitly, in which case
the supplied wave is the one stored. -/
theorem c3_amended (α : Type) (corrWave : α) (s : RefState α) :
    ((reconstructCall corrWave none s).correctorRuns = s.correctorRuns + 1 ∧
     (reconstructCall corrWave none s).reference_wave = some corrWave) ∧
    ∀ r : α, (reconstructCall corrWave (some r) s).correctorRuns = s.correctorRuns ∧
      (reconstructCall corrWave (some r) s).reference_wave = some r :=
  ⟨⟨rfl, rfl⟩, fun _ => ⟨rfl, rfl⟩⟩

/-- Claim C4: the claim states that where the kernel argument has a+b > 1 the
kernel value has magnitude < 1 and is never NaN, the square root being taken
as a complex square root.  In fact the source computes `np.sqrt(1.0 - a - b)`
on a real-valued float array, and numpy's real square root of a negative
number is NaN, which propagates through `np.exp`: at every pixel with
a + b > 1 the kernel value is NaN. -/
theorem c4_evanescent_kernel_is_nan (n : ℕ) (wavelength dx dy z : ℚ) (i j : ℕ)
    (h : 1 < kernel_a n wavelength dx z j + kernel_a n wavelength dy z i) :
    G_isNaN n wavelength dx dy z i j = true := by
  unfold G_isNaN npSqrt_isNaN kernel_sqrt_arg
  simp only [decide_eq_true_eq]
  linarith

/-- Witness for C4: at n = 4, wavelength = dx = dy = z = 1, pixel (3, 3), the
kernel argument terms sum to 81/8 > 1 and the kernel value is NaN. -/
theorem c4_evanescent_kernel_is_nan_witness :
    1 < kernel_a 4 1 1 1 3 + kernel_a 4 1 1 1 3 ∧
    G_isNaN 4 1 1 1 1 3 3 = true :=
  ⟨by norm_num [kernel_a],
   c4_evanescent_kernel_is_nan 4 1 1 1 1 3 3 (by norm_num [kernel_a])⟩

/-- Claim C5, counterexample: the claim states that `.phase` equals the
unwrapped phase of `2*arctan(imag/real)` divided by 2.  The source (lines
660-662) performs no division: on the constant wavefield `1 + 2i`, taking
the identity for both external collaborators (a phase unwrapper is the
identity on a constant, jump-free input), the property's value at pixel
(0,0) is `2*(2/1) = 4` while the specified value is `4/2 = 2`. -/
theorem c5_counterexample :
    (phase_access (fun g => g) (fun q => q) ⟨wavefield_const, none⟩).1 0 0 ≠
      phase_spec (fun g => g) (fun q => q) wavefield_const 0 0 := by
  norm_num [phase_access, phase_spec, wrapped_double_phase, wavefield_const]

/-- Claim C5, amended: for every unwrapping function, arctan function and
wavefield, `.phase` on first access computes exactly the unwrapping of
`2*arctan(imag/real)` with no division by 2 (pointwise twice the value the
specification describes), memoises it, and every later access returns the
same array with the state unchanged. -/
theorem c5_amended (unwrapF : (ℕ → ℕ → ℚ) → ℕ → ℕ → ℚ) (atanF : ℚ → ℚ)
    (w : ℕ → ℕ → ℚ × ℚ) :
    (phase_access unwrapF atanF ⟨w, none⟩).1 = unwrapF (wrapped_double_phase atanF w) ∧
    (phase_access unwrapF atanF ⟨w, none⟩).1 =
      (fun i j => 2 * phase_spec unwrapF atanF w i j) ∧
    (phase_access unwrapF atanF ((phase_access unwrapF atanF ⟨w, none⟩).2)).1 =
      (phase_access unwrapF atanF ⟨w, none⟩).1 ∧
    (phase_access unwrapF atanF ((phase_access unwrapF atanF ⟨w, none⟩).2)).2 =
      (phase_access unwrapF atanF ⟨w, none⟩).2 := by
  refine ⟨rfl, ?h2, rfl, rfl⟩
  funext i j
  simp only [phase_spec, phase_access]
  ring

/-- Claim C6: for every centroid (cx, cy), radius r and pixel (x, y) inside
the n×n grid, `generate_real_image_mask` returns an n×n array whose entry at
column x, row y is 1.0 exactly when (x-cx)² + (y-cy)² < r² (strict
inequality, boundary excluded) and 0.0 otherwise. -/
theorem c6_mask (n : ℕ) (cx cy r : ℚ) (x y : ℕ) (hx : x < n) (hy : y < n) :
    (generate_real_image_mask n cx cy r).length = n ∧
    (∀ row ∈ generate_real_image_mask n cx cy r, row.length = n) ∧
    (cell (generate_real_image_mask n cx cy r) y x = 1 ↔
      ((x : ℚ) - cx) ^ 2 + ((y : ℚ) - cy) ^ 2 < r ^ 2) ∧
    (cell (generate_real_image_mask n cx cy r) y x = 0 ↔
      ¬ (((x : ℚ) - cx) ^ 2 + ((y : ℚ) - cy) ^ 2 < r ^ 2)) := by
  have hcell : cell (generate_real_image_mask n cx cy r) y x =
      if ((x : ℚ) - cx) ^ 2 + ((y : ℚ) - cy) ^ 2 < r ^ 2 then 1 else 0 := by
    unfold cell generate_real_image_mask
    rw [List.getElem?_map, List.getElem?_range hy]
    simp only [Option.map_some', Option.getD_some]
    rw [List.getElem?_map, List.getElem?_range hx]
    simp only [Option.map_some', Option.getD_some]
  refine ⟨?len, ?rows, ?one, ?zero⟩
  · simp only [generate_real_image_mask, List.length_map, List.length_range]
  · intro row hrow
    simp only [generate_real_image_mask, List.mem_map, List.mem_range] at hrow
    obtain ⟨i, _, rfl⟩ := hrow
    simp only [List.length_map, List.length_range]
  · rw [hcell]
    by_cases hc : ((x : ℚ) - cx) ^ 2 + ((y : ℚ) - cy) ^ 2 < r ^ 2 <;> simp [hc]
  · rw [hcell]
    by_cases hc : ((x : ℚ) - cx) ^ 2 + ((y : ℚ) - cy) ^ 2 < r ^ 2 <;> simp [hc]

/-- Witness for C6: the specification's own example grid, n = 16,
cx = cy = 8, r = 3, at the interior pixel (x, y) = (10, 8):
(10-8)² + (8-8)² = 4 < 9, so the mask entry is 1. -/
theorem c6_mask_witness :
    (10 < 16 ∧ 8 < 16) ∧
    ((generate_real_image_mask 16 8 8 3).length = 16 ∧
     (∀ row ∈ generate_real_image_mask 16 8 8 3, row.length = 16) ∧
     (cell (generate_real_image_mask 16 8 8 3) 8 10 = 1 ↔
       ((10 : ℚ) - 8) ^ 2 + ((8 : ℚ) - 8) ^ 2 < 3 ^ 2) ∧
     (cell (generate_real_image_mask 16 8 8 3) 8 10 = 0 ↔
       ¬ (((10 : ℚ) - 8) ^ 2 + ((8 : ℚ) - 8) ^ 2 < 3 ^ 2))) :=
  ⟨⟨by decide, by decide⟩, by
    have h := c6_mask 16 8 8 3 10 8 (by decide) (by decide)
    simpa using h⟩

/-- The apodisation window is `sqrt(cos(-pi/2)) = 0` at index 0. -/
theorem apod_window_zero (n : ℕ) (hn : 0 < n) : apod_window n 0 = 0 := by
  unfold apod_window
  have hne : (n : ℝ) ≠ 0 := Nat.cast_ne_zero.2 hn.ne'
  have harg : (((0 : ℕ) : ℝ) - (n : ℝ) / 2) * Real.pi / (n : ℝ) = -(Real.pi / 2) := by
    field_simp
    ring
  rw [harg, Real.cos_neg, Real.cos_pi_div_two, Real.sqrt_zero]

/-- The apodisation window is `sqrt(cos(0)) = 1` at the centre index. -/
theorem apod_window_center (n : ℕ) (hn : 0 < n) (he : n % 2 = 0) :
    apod_window n (n / 2) = 1 := by
  unfold apod_window
  have hcast : ((n / 2 : ℕ) : ℝ) = (n : ℝ) / 2 := by
    have h : (n / 2) * 2 = n := by omega
    field_simp
    exact_mod_cast h
  rw [hcast]
  simp

/-- The apodisation window at the last index is
`sqrt(cos(pi/2 - pi/n)) = sqrt(sin(pi/n))`. -/
theorem apod_window_last (n : ℕ) (h2 : 2 ≤ n) :
    apod_window n (n - 1) = Real.sqrt (Real.sin (Real.pi / n)) := by
  unfold apod_window
  have hne : (n : ℝ) ≠ 0 := Nat.cast_ne_zero.2 (by omega)
  have hcast : ((n - 1 : ℕ) : ℝ) = (n : ℝ) - 1 := by
    have h1 : 1 ≤ n := by omega
    push_cast [h1]
    ring
  have harg : ((n : ℝ) - 1 - (n : ℝ) / 2) * Real.pi / (n : ℝ) =
      Real.pi / 2 - Real.pi / n := by
    field_simp
    ring
  rw [hcast, harg, Real.cos_pi_div_two_sub]

/-- Claim C7: for every even n ≥ 2 and array, the apodized array vanishes at
the corners (0,0), (0,n-1) and (n-1,0) exactly; at the corner (n-1,n-1) it
equals the original value times sin(pi/n), which is bounded in magnitude by
the original value times pi/n (numerically ≈ 0 for the specified n = 256,
where the factor is sin(pi/256) < 0.0123); and at the centre pixel
(n/2, n/2) the apodized value equals the original value, the window factor
there being cos(0) = 1. -/
theorem c7_apodize_boundary (n : ℕ) (h2 : 2 ≤ n) (he : n % 2 = 0)
    (arr : ℕ → ℕ → ℝ) :
    apodize n arr 0 0 = 0 ∧
    apodize n arr 0 (n - 1) = 0 ∧
    apodize n arr (n - 1) 0 = 0 ∧
    apodize n arr (n - 1) (n - 1) = arr (n - 1) (n - 1) * Real.sin (Real.pi / n) ∧
    |arr (n - 1) (n - 1) * Real.sin (Real.pi / n)| ≤
      |arr (n - 1) (n - 1)| * (Real.pi / n) ∧
    apodize n arr (n / 2) (n / 2) = arr (n / 2) (n / 2) := by
  have hn : 0 < n := by omega
  have hw0 := apod_window_zero n hn
  have hwc := apod_window_center n hn he
  have hwl := apod_window_last n h2
  have hpos : 0 < Real.pi / n := by positivity
  have hle : Real.pi / n ≤ Real.pi :=
    div_le_self Real.pi_pos.le (by exact_mod_cast hn)
  have hsin_nonneg : 0 ≤ Real.sin (Real.pi / n) :=
    Real.sin_nonneg_of_nonneg_of_le_pi hpos.le hle
  refine ⟨?a, ?b, ?c, ?d, ?e, ?f⟩
  · simp [apodize, hw0]
  · simp [apodize, hw0]
  · simp [apodize, hw0]
  · unfold apodize
    rw [hwl, Real.mul_self_sqrt hsin_nonneg]
  · rw [abs_mul, abs_of_nonneg hsin_nonneg]
    exact mul_le_mul_of_nonneg_left (Real.sin_lt hpos).le (abs_nonneg _)
  · unfold apodize
    rw [hwc]
    ring

/-- Witness for C7: the theorem instantiated at n = 4 and the all-ones
array. -/
theorem c7_apodize_boundary_witness :
    (2 ≤ 4 ∧ 4 % 2 = 0) ∧
    (apodize 4 (fun _ _ => (1 : ℝ)) 0 0 = 0 ∧
     apodize 4 (fun _ _ => (1 : ℝ)) 0 (4 - 1) = 0 ∧
     apodize 4 (fun _ _ => (1 : ℝ)) (4 - 1) 0 = 0 ∧
     apodize 4 (fun _ _ => (1 : ℝ)) (4 - 1) (4 - 1) =
       (fun (_ : ℕ) (_ : ℕ) => (1 : ℝ)) (4 - 1) (4 - 1) * Real.sin (Real.pi / 4) ∧
     |(fun (_ : ℕ) (_ : ℕ) => (1 : ℝ)) (4 - 1) (4 - 1) * Real.sin (Real.pi / 4)| ≤
       |(fun (_ : ℕ) (_ : ℕ) => (1 : ℝ)) (4 - 1) (4 - 1)| * (Real.pi / 4) ∧
     apodize 4 (fun _ _ => (1 : ℝ)) (4 / 2) (4 / 2) =
       (fun (_ : ℕ) (_ : ℕ) => (1 : ℝ)) (4 / 2) (4 / 2)) :=
  ⟨⟨by norm_num, by norm_num⟩, by
    have h := c7_apodize_boundary 4 (by norm_num) (by norm_num) (fun _ _ => (1 : ℝ))
    simpa using h⟩

/-- Claim C8: the claim states that the stored hologram array is never
modified after construction, in particular by `reconstruct`.  In fact
`apodize` multiplies its argument in place (`arr *= ...`, source line 533)
and `reconstruct_wavefield` passes `self.hologram` to it (line 226), so one
reconstruction scales the stored hologram by the window: for the 4×4
hologram of ones, the stored entry (0,0) becomes 0 ≠ 1 after one call, so
repeated reconstructions do not read the same input data. -/
theorem c8_reconstruct_mutates_hologram :
    (reconstruct_wavefield_hologram_after holo_ones).hologram 0 0 ≠
      holo_ones.hologram 0 0 := by
  have hw0 : apod_window 4 0 = 0 := apod_window_zero 4 (by norm_num)
  simp [reconstruct_wavefield_hologram_after, apodize_inplace, apodize,
    holo_ones, hw0]

/-- With margin ≥ n/2 the restricted spectral-search region is empty: the
pipeline still apodises, Fourier-transforms, slices and smooths, then fails
with numpy's untyped `ValueError` at the argmax. -/
theorem peak_search_empty_margin (n : ℕ) (margin_factor : ℚ)
    (peakIdx : ℕ → ℕ × ℕ) (hn : 0 < n)
    (hm : (n : ℤ) ≤ 2 * int_trunc ((n : ℚ) * margin_factor)) :
    reconstruct_peak_pipeline n margin_factor peakIdx =
      ([PeakEvent.apodize_step, PeakEvent.fft2_step, PeakEvent.abs_slice_step,
        PeakEvent.gaussian_smooth_step],
       Except.error PeakError.valueErrorEmptyArgmax) := by
  set m := int_trunc ((n : ℚ) * margin_factor) with hmdef
  have hside : sliceLen n m (-m) = 0 := by
    simp only [sliceLen, sliceIdx]
    split_ifs <;> omega
  simp [reconstruct_peak_pipeline, find_fourier_peak_centroid, ← hmdef, hside]

/-- Claim C9, counterexample: the claim states that a margin ≥ n/2 makes the
peak search fail fast with a configuration error surfaced before any FFT
work.  At n = 10 with margin_factor = 1/2 (margin = 5 = n/2), the embedded
pipeline's error is numpy's untyped `ValueError` from the argmax on the
empty region, not a configuration error, and the FFT step has already been
performed before the failure. -/
theorem c9_counterexample :
    (reconstruct_peak_pipeline 10 (1/2) (fun _ => (0, 0))).2 =
      Except.error PeakError.valueErrorEmptyArgmax ∧
    (reconstruct_peak_pipeline 10 (1/2) (fun _ => (0, 0))).2 ≠
      Except.error PeakError.configurationError ∧
    PeakEvent.fft2_step ∈ (reconstruct_peak_pipeline 10 (1/2) (fun _ => (0, 0))).1 := by
  have hpipe := peak_search_empty_margin 10 (1/2) (fun _ => (0, 0))
    (by norm_num) (by norm_num [int_trunc])
  rw [hpipe]
  refine ⟨rfl, ?ne, ?mem⟩
  · intro h
    exact absurd (Except.error.inj h) (by decide)
  · decide

/-- Claim C9, amended: no fail-fast validation of the margin exists anywhere
(neither `Hologram.__init__` nor the peak search checks it); whenever the
truncated margin `int(n * margin_factor)` is at least n/2, the restricted
region is empty, and the search raises numpy's untyped `ValueError` only at
the argmax step, after the slice and Gaussian smoothing and after the
caller's apodisation and FFT; it never returns an out-of-range centroid. -/
theorem c9_amended (n : ℕ) (margin_factor : ℚ) (peakIdx : ℕ → ℕ × ℕ)
    (hn : 0 < n)
    (hm : (n : ℤ) ≤ 2 * int_trunc ((n : ℚ) * margin_factor)) :
    reconstruct_peak_pipeline n margin_factor peakIdx =
      ([PeakEvent.apodize_step, PeakEvent.fft2_step, PeakEvent.abs_slice_step,
        PeakEvent.gaussian_smooth_step],
       Except.error PeakError.valueErrorEmptyArgmax) :=
  peak_search_empty_margin n margin_factor peakIdx hn hm

/-- Witness for C9 (amended): n = 10, margin_factor = 1/2. -/
theorem c9_amended_witness :
    ((0 : ℕ) < 10 ∧ (10 : ℤ) ≤ 2 * int_trunc ((10 : ℚ) * (1/2))) ∧
    reconstruct_peak_pipeline 10 (1/2) (fun _ => (1, 1)) =
      ([PeakEvent.apodize_step, PeakEvent.fft2_step, PeakEvent.abs_slice_step,
        PeakEvent.gaussian_smooth_step],
       Except.error PeakError.valueErrorEmptyArgmax) :=
  ⟨⟨by decide, by norm_num [int_trunc]⟩,
   c9_amended 10 (1/2) (fun _ => (1, 1)) (by decide) (by norm_num [int_trunc])⟩

/-- `np.roll` commutes with mapping a function over the rolled list. -/
theorem npRoll_map {α β : Type} (s : ℤ) (f : α → β) (l : List α) :
    npRoll s (l.map f) = (npRoll s l).map f := by
  unfold npRoll
  rw [List.length_map]
  exact (List.map_rotate f l _).symm

/-- `np.roll` permutes the list entries. -/
theorem npRoll_perm {α : Type} (s : ℤ) (l : List α) : (npRoll s l).Perm l :=
  List.rotate_perm l _

/-- Rolling a length-n list by n/2 twice (n even) is the identity. -/
theorem npRoll_half_half {α : Type} (n : ℕ) (hn : 0 < n) (he : n % 2 = 0)
    (l : List α) (hl : l.length = n) :
    npRoll ((n : ℤ) / 2) (npRoll ((n : ℤ) / 2) l) = l := by
  unfold npRoll
  rw [List.length_rotate, hl, List.rotate_rotate]
  have hmod : (-((n : ℤ) / 2)) % (n : ℤ) = (n : ℤ) / 2 := by
    have h1 : -((n : ℤ) / 2) = (n : ℤ) / 2 + (n : ℤ) * (-1) := by omega
    rw [h1, Int.add_mul_emod_self_left]
    exact Int.emod_eq_of_lt (by omega) (by omega)
  have hk : ((-((n : ℤ) / 2)) % (n : ℤ)).toNat +
      ((-((n : ℤ) / 2)) % (n : ℤ)).toNat = n := by
    rw [hmod]
    omega
  rw [hk, ← hl, List.rotate_length]

/-- Rotating the row list preserves the multiset of entries of the
flattened array. -/
theorem flatten_rotate_perm {α : Type} (L : List (List α)) (k : ℕ) :
    (L.rotate k).flatten.Perm L.flatten := by
  rw [List.rotate_eq_drop_append_take_mod, List.flatten_append]
  refine List.Perm.trans List.perm_append_comm ?h
  rw [← List.flatten_append, List.take_append_drop]

/-- Mapping a per-row permutation over the rows preserves the multiset of
entries of the flattened array. -/
theorem flatten_map_perm {α : Type} (f : List α → List α)
    (hf : ∀ l : List α, (f l).Perm l) :
    ∀ L : List (List α), (L.map f).flatten.Perm L.flatten
  | [] => List.Perm.refl _
  | a :: L => by
      simp only [List.map_cons, List.flatten_cons]
      exact (hf a).append (flatten_map_perm f hf L)

/-- Claim C10: for every n×n array with n even, applying `shift_peak` with
shifts [n/2, n/2] twice returns the original array (the quadrant-swap roll
is an involution), and a single `shift_peak` application with any integer
shifts permutes the array's entries, preserving their multiset. -/
theorem c10_shift_peak (α : Type) (n : ℕ) (hn : 0 < n) (he : n % 2 = 0)
    (arr : List (List α)) (hl : arr.length = n)
    (hrows : ∀ row ∈ arr, row.length = n) :
    shift_peak (shift_peak arr ((n : ℤ) / 2) ((n : ℤ) / 2)) ((n : ℤ) / 2) ((n : ℤ) / 2) = arr ∧
    ∀ sx sy : ℤ, ((shift_peak arr sx sy).flatten).Perm arr.flatten := by
  constructor
  · unfold shift_peak
    rw [npRoll_map, List.map_map]
    rw [npRoll_half_half n hn he arr hl]
    have hrow : ∀ row ∈ arr, (npRoll ((n : ℤ) / 2) ∘ npRoll ((n : ℤ) / 2)) row = row :=
      fun row hr => npRoll_half_half n hn he row (hrows row hr)
    rw [List.map_congr_left hrow]
    exact List.map_id' arr
  · intro sx sy
    unfold shift_peak
    refine List.Perm.trans
      (flatten_map_perm (npRoll sy) (npRoll_perm sy) (npRoll sx arr)) ?h
    unfold npRoll
    exact flatten_rotate_perm arr _

/-- Witness for C10: the 2×2 array [[1,2],[3,4]]. -/
theorem c10_shift_peak_witness :
    ((0 : ℕ) < 2 ∧ 2 % 2 = 0 ∧
     ([[1, 2], [3, 4]] : List (List ℕ)).length = 2 ∧
     (∀ row ∈ ([[1, 2], [3, 4]] : List (List ℕ)), row.length = 2)) ∧
    (shift_peak (shift_peak ([[1, 2], [3, 4]] : List (List ℕ)) ((2 : ℤ) / 2) ((2 : ℤ) / 2))
        ((2 : ℤ) / 2) ((2 : ℤ) / 2) = [[1, 2], [3, 4]] ∧
     ∀ sx sy : ℤ,
       ((shift_peak ([[1, 2], [3, 4]] : List (List ℕ)) sx sy).flatten).Perm
         ([[1, 2], [3, 4]] : List (List ℕ)).flatten) :=
  ⟨⟨by decide, by decide, by decide, by decide⟩,
   c10_shift_peak ℕ 2 (by decide) (by decide) [[1, 2], [3, 4]] (by decide) (by decide)⟩
